import Mathlib

/-!
Shallow embedding of the HD44780 character-LCD driver in `src/lcd.c`
(files `lcd.c` / `lcd.h`).

The driver has no return values and no readable state: its entire
observable behaviour is the sequence of GPIO pin writes and delays it
performs.  We therefore embed each C function as the pure *trace* of
events it emits, in program order:

  * `HAL_GPIO_WritePin(port, pin, v)`   becomes `Event.writePin pin v`
  * `Delay(us)`  (timer busy-wait, µs)  becomes `Event.delayUs us`
  * `HAL_Delay(ms)` (HAL delay, ms)     becomes `Event.delayMs ms`

C integer details: on the ARM EABI targeted by this STM32 code, plain
`char` is unsigned (8 bits), so `int → char` conversion is reduction
mod 256.  Shifts and masks on the (promoted) values match `Nat`
shifts/masks for the non-negative values that occur here; `col` in
`LCD_Put_Cursor` is modelled as `Nat` (the non-negative `int` inputs),
while `row` keeps the full `int` range as `Int` because the code
switches on it.
-/

/-- The six digital output lines the driver writes: register-select,
the four data lines, and the enable (strobe) line. -/
inductive Pin : Type
  | RS | DB7 | DB6 | DB5 | DB4 | EN
deriving DecidableEq

/-- One observable action of the driver. -/
inductive Event : Type
  | writePin : Pin → Nat → Event
  | delayUs : Nat → Event
  | delayMs : Nat → Event
deriving DecidableEq

/-- Embedding of `LCD_Transmit(char data, int rs)` (lcd.c lines 43-57):
write RS, write the four data lines from bits 3..0 of `data`, raise EN,
wait 20 µs, lower EN, wait 20 µs. -/
def LCD_Transmit (data : Nat) (rs : Nat) : List Event :=
  [ Event.writePin Pin.RS rs,
    Event.writePin Pin.DB7 ((data >>> 3) &&& 0x01),
    Event.writePin Pin.DB6 ((data >>> 2) &&& 0x01),
    Event.writePin Pin.DB5 ((data >>> 1) &&& 0x01),
    Event.writePin Pin.DB4 ((data >>> 0) &&& 0x01),
    Event.writePin Pin.EN 1,
    Event.delayUs 20,
    Event.writePin Pin.EN 0,
    Event.delayUs 20 ]

/-- Embedding of `LCD_Command(char cmd)` (lcd.c lines 68-77): transmit
the high nibble then the low nibble, both with rs = 0. -/
def LCD_Command (cmd : Nat) : List Event :=
  LCD_Transmit ((cmd >>> 4) &&& 0x0F) 0 ++ LCD_Transmit (cmd &&& 0x0F) 0

/-- Embedding of `LCD_Data(char data)` (lcd.c lines 89-98): transmit
the high nibble then the low nibble, both with rs = 1. -/
def LCD_Data (data : Nat) : List Event :=
  LCD_Transmit ((data >>> 4) &&& 0x0F) 1 ++ LCD_Transmit (data &&& 0x0F) 1

/-- Embedding of `LCD_Clear(void)` (lcd.c lines 105-110):
`LCD_Command(0x01); HAL_Delay(2);`. -/
def LCD_Clear : List Event :=
  LCD_Command 0x01 ++ [Event.delayMs 2]

/-- Embedding of `LCD_Put_Cursor(int row, int col)` (lcd.c lines
124-136): `switch(row)` ORs 0x80 (row 0) or 0xC0 (row 1) into `col`,
any other row leaves `col` unchanged; then `LCD_Command(col)`, whose
`int → char` argument conversion reduces mod 256. -/
def LCD_Put_Cursor (row : Int) (col : Nat) : List Event :=
  let col' : Nat :=
    if row = 0 then col ||| 0x80
    else if row = 1 then col ||| 0xC0
    else col
  LCD_Command (col' % 256)

/-- Embedding of `LCD_Init(void)` (lcd.c lines 148-169), in exact
program order: the delays are `HAL_Delay` milliseconds. -/
def LCD_Init : List Event :=
  [Event.delayMs 50] ++
  LCD_Command 0x30 ++ [Event.delayMs 5] ++
  LCD_Command 0x30 ++ [Event.delayMs 1] ++
  LCD_Command 0x30 ++ [Event.delayMs 10] ++
  LCD_Command 0x20 ++ [Event.delayMs 10] ++
  LCD_Command 0x28 ++ [Event.delayMs 1] ++
  LCD_Command 0x08 ++ [Event.delayMs 1] ++
  LCD_Command 0x01 ++ [Event.delayMs 1] ++
  LCD_Command 0x06 ++ [Event.delayMs 1] ++
  LCD_Command 0x0C

/-- Embedding of `LCD_String(char *str)` (lcd.c lines 176-179):
`while(*str) LCD_Data(*str++);`.  The C string is modelled as the list
of bytes in memory; the loop stops at the first 0 byte (the
terminator).  An exhausted list corresponds to the terminator cell. -/
def LCD_String : List Nat → List Event
  | [] => []
  | c :: rest => if c = 0 then [] else LCD_Data c ++ LCD_String rest

/-! ### Observation layer: pin-state semantics of a trace

The HD44780 latches the levels present on RS/DB7..DB4 when the enable
line is strobed.  To state what a trace "sends" we replay it over an
explicit pin state and record, at every write that raises EN, the
nibble value on the data lines and the RS level. -/

/-- Levels currently driven on the six output lines. -/
structure PinState : Type where
  rs : Nat
  db7 : Nat
  db6 : Nat
  db5 : Nat
  db4 : Nat
  en : Nat
deriving DecidableEq

/-- Update one line of the pin state. -/
def setPin (s : PinState) (p : Pin) (v : Nat) : PinState :=
  match p with
  | Pin.RS => { s with rs := v }
  | Pin.DB7 => { s with db7 := v }
  | Pin.DB6 => { s with db6 := v }
  | Pin.DB5 => { s with db5 := v }
  | Pin.DB4 => { s with db4 := v }
  | Pin.EN => { s with en := v }

/-- Effect of one event on the pin state (delays change no line). -/
def step (s : PinState) : Event → PinState
  | Event.writePin p v => setPin s p v
  | Event.delayUs _ => s
  | Event.delayMs _ => s

/-- Pin state after replaying a whole trace. -/
def runTrace (s : PinState) (t : List Event) : PinState :=
  t.foldl step s

/-- The 4-bit value currently on the data lines, DB7 most significant. -/
def nibbleOf (s : PinState) : Nat :=
  8 * s.db7 + 4 * s.db6 + 2 * s.db5 + s.db4

/-- Does this event drive the enable line high (start a strobe)? -/
def isEnSet : Event → Bool
  | Event.writePin Pin.EN v => v != 0
  | _ => false

/-- The nibble transmissions an observer latches from a trace, replayed
from pin state `s`: at each write that raises EN, record the data-line
nibble and the RS level at that moment. -/
def transmissionsFrom (s : PinState) : List Event → List (Nat × Nat)
  | [] => []
  | e :: rest =>
    if isEnSet e then
      (nibbleOf (step s e), (step s e).rs) :: transmissionsFrom (step s e) rest
    else
      transmissionsFrom (step s e) rest

/-- Pair up consecutive nibble transmissions (high nibble first, per the
4-bit protocol) into the 8-bit values they transfer, with the mode. -/
def bytesOf : List (Nat × Nat) → List (Nat × Nat)
  | (n1, m1) :: (n2, _) :: rest => (16 * n1 + n2, m1) :: bytesOf rest
  | _ => []

/-- All lines low: the reference power-on observation state. -/
def resetState : PinState :=
  { rs := 0, db7 := 0, db6 := 0, db5 := 0, db4 := 0, en := 0 }

/-- The bytes a trace sends (value, mode), observed from reset. -/
def emittedBytes (t : List Event) : List (Nat × Nat) :=
  bytesOf (transmissionsFrom resetState t)

/-- The level of an RS write, if this event is one. -/
def rsLevel : Event → Option Nat
  | Event.writePin Pin.RS v => some v
  | _ => none

/-- The duration of a millisecond delay, if this event is one. -/
def msDelay : Event → Option Nat
  | Event.delayMs n => some n
  | _ => none

/-! ### Helper lemmas -/

/-- The value of bit `k` of `n` as a GPIO level (1 or 0). -/
def bitOf (n k : Nat) : Nat := if n.testBit k then 1 else 0

theorem shiftRight_and_one_eq_bitOf (n k : Nat) : (n >>> k) &&& 1 = bitOf n k := by
  rcases Nat.mod_two_eq_zero_or_one (n >>> k) with h | h <;>
    simp [bitOf, Nat.testBit, Nat.and_one_is_mod, Nat.one_and_eq_mod_two, h]

theorem and_fifteen_lt (n : Nat) : n &&& 0x0F < 16 :=
  Nat.lt_succ_of_le Nat.and_le_right

theorem nibble_recompose (n : Nat) (h : n < 16) :
    8 * ((n >>> 3) &&& 1) + 4 * ((n >>> 2) &&& 1) + 2 * ((n >>> 1) &&& 1) +
      ((n >>> 0) &&& 1) = n := by
  simp only [Nat.shiftRight_eq_div_pow, Nat.and_one_is_mod]
  omega

theorem byte_recompose (m : Nat) :
    16 * ((m >>> 4) &&& 0x0F) + (m &&& 0x0F) = m % 256 := by
  have h1 : (m >>> 4) &&& 0x0F = m / 16 % 16 := by
    rw [Nat.and_pow_two_sub_one_eq_mod _ 4, Nat.shiftRight_eq_div_pow]
  have h2 : m &&& 0x0F = m % 16 := Nat.and_pow_two_sub_one_eq_mod m 4
  rw [h1, h2]
  omega

theorem runTrace_append (s : PinState) (t u : List Event) :
    runTrace s (t ++ u) = runTrace (runTrace s t) u := by
  simp [runTrace, List.foldl_append]

theorem transmissionsFrom_append (s : PinState) (t u : List Event) :
    transmissionsFrom s (t ++ u)
      = transmissionsFrom s t ++ transmissionsFrom (runTrace s t) u := by
  induction t generalizing s with
  | nil => rfl
  | cons e rest ih =>
    by_cases h : isEnSet e <;>
      simp [transmissionsFrom, h, ih, runTrace]

/-- What one `LCD_Transmit` call looks like to the observer: a single
strobe latching the recomposed data-line nibble with the RS level. -/
theorem transmissionsFrom_transmit (s : PinState) (n rs : Nat) :
    transmissionsFrom s (LCD_Transmit n rs)
      = [(8 * ((n >>> 3) &&& 1) + 4 * ((n >>> 2) &&& 1) + 2 * ((n >>> 1) &&& 1) +
          ((n >>> 0) &&& 1), rs)] := rfl

theorem transmissionsFrom_command (s : PinState) (v : Nat) :
    transmissionsFrom s (LCD_Command v) = [((v >>> 4) &&& 0x0F, 0), (v &&& 0x0F, 0)] := by
  have h1 := nibble_recompose ((v >>> 4) &&& 0x0F) (and_fifteen_lt _)
  have h2 := nibble_recompose (v &&& 0x0F) (and_fifteen_lt _)
  calc transmissionsFrom s (LCD_Command v)
      = [(8 * ((((v >>> 4) &&& 0x0F) >>> 3) &&& 1) + 4 * ((((v >>> 4) &&& 0x0F) >>> 2) &&& 1) +
            2 * ((((v >>> 4) &&& 0x0F) >>> 1) &&& 1) + ((((v >>> 4) &&& 0x0F) >>> 0) &&& 1), 0),
          (8 * (((v &&& 0x0F) >>> 3) &&& 1) + 4 * (((v &&& 0x0F) >>> 2) &&& 1) +
            2 * (((v &&& 0x0F) >>> 1) &&& 1) + (((v &&& 0x0F) >>> 0) &&& 1), 0)] := rfl
    _ = [((v >>> 4) &&& 0x0F, 0), (v &&& 0x0F, 0)] := by rw [h1, h2]

theorem transmissionsFrom_data (s : PinState) (v : Nat) :
    transmissionsFrom s (LCD_Data v) = [((v >>> 4) &&& 0x0F, 1), (v &&& 0x0F, 1)] := by
  have h1 := nibble_recompose ((v >>> 4) &&& 0x0F) (and_fifteen_lt _)
  have h2 := nibble_recompose (v &&& 0x0F) (and_fifteen_lt _)
  calc transmissionsFrom s (LCD_Data v)
      = [(8 * ((((v >>> 4) &&& 0x0F) >>> 3) &&& 1) + 4 * ((((v >>> 4) &&& 0x0F) >>> 2) &&& 1) +
            2 * ((((v >>> 4) &&& 0x0F) >>> 1) &&& 1) + ((((v >>> 4) &&& 0x0F) >>> 0) &&& 1), 1),
          (8 * (((v &&& 0x0F) >>> 3) &&& 1) + 4 * (((v &&& 0x0F) >>> 2) &&& 1) +
            2 * (((v &&& 0x0F) >>> 1) &&& 1) + (((v &&& 0x0F) >>> 0) &&& 1), 1)] := rfl
    _ = [((v >>> 4) &&& 0x0F, 1), (v &&& 0x0F, 1)] := by rw [h1, h2]

theorem emittedBytes_command (v : Nat) : emittedBytes (LCD_Command v) = [(v % 256, 0)] := by
  unfold emittedBytes
  rw [transmissionsFrom_command]
  show [(16 * ((v >>> 4) &&& 0x0F) + (v &&& 0x0F), 0)] = [(v % 256, 0)]
  rw [byte_recompose]

/-- The transmissions parsed out of the initialization trace do not
depend on the pin state the replay starts from: every line is written
before the first strobe. -/
theorem transmissionsFrom_init_const (s : PinState) :
    transmissionsFrom s LCD_Init = transmissionsFrom resetState LCD_Init := rfl

theorem LCD_String_eq_flatMap (str rest : List Nat) (h : ∀ c ∈ str, c ≠ 0) :
    LCD_String (str ++ 0 :: rest) = str.flatMap LCD_Data := by
  induction str with
  | nil => rfl
  | cons c tail ih =>
    have hc : c ≠ 0 := h c (by simp)
    simp only [List.cons_append, LCD_String, if_neg hc, List.flatMap_cons]
    exact congrArg (fun l => LCD_Data c ++ l) (ih fun x hx => h x (by simp [hx]))

theorem transmissionsFrom_string (str : List Nat) (s : PinState) :
    transmissionsFrom s (str.flatMap LCD_Data)
      = str.flatMap (fun c => [((c >>> 4) &&& 0x0F, 1), (c &&& 0x0F, 1)]) := by
  induction str generalizing s with
  | nil => rfl
  | cons c tail ih =>
    simp only [List.flatMap_cons]
    rw [transmissionsFrom_append, transmissionsFrom_data, ih]

theorem bytesOf_string (str : List Nat) :
    bytesOf (str.flatMap fun c => [((c >>> 4) &&& 0x0F, 1), (c &&& 0x0F, 1)])
      = str.map (fun c => (c % 256, 1)) := by
  induction str with
  | nil => rfl
  | cons c tail ih =>
    simp only [List.flatMap_cons, List.map_cons, List.cons_append, List.nil_append]
    show (16 * ((c >>> 4) &&& 0x0F) + (c &&& 0x0F), 1) :: bytesOf _ = _
    rw [byte_recompose, ih]

/-! ### Claim C1: the initialization sequence -/

/-- Shape asserted by the spec for the initialization trace: nine
command sends, a delay after every one of them (including the last),
with the three delays after the 0x30 sends and the six later delays
given as parameters. -/
def initClaimTemplate (d0 d1 d2 d3 e1 e2 e3 e4 e5 e6 : Nat) : List Event :=
  [Event.delayMs d0] ++
  LCD_Command 0x30 ++ [Event.delayMs d1] ++
  LCD_Command 0x30 ++ [Event.delayMs d2] ++
  LCD_Command 0x30 ++ [Event.delayMs d3] ++
  LCD_Command 0x20 ++ [Event.delayMs e1] ++
  LCD_Command 0x28 ++ [Event.delayMs e2] ++
  LCD_Command 0x08 ++ [Event.delayMs e3] ++
  LCD_Command 0x01 ++ [Event.delayMs e4] ++
  LCD_Command 0x06 ++ [Event.delayMs e5] ++
  LCD_Command 0x0C ++ [Event.delayMs e6]

/-- Shape the code actually has: identical to `initClaimTemplate`
except that nothing follows the final 0x0C command send. -/
def initActualTemplate (d0 d1 d2 d3 e1 e2 e3 e4 e5 : Nat) : List Event :=
  [Event.delayMs d0] ++
  LCD_Command 0x30 ++ [Event.delayMs d1] ++
  LCD_Command 0x30 ++ [Event.delayMs d2] ++
  LCD_Command 0x30 ++ [Event.delayMs d3] ++
  LCD_Command 0x20 ++ [Event.delayMs e1] ++
  LCD_Command 0x28 ++ [Event.delayMs e2] ++
  LCD_Command 0x08 ++ [Event.delayMs e3] ++
  LCD_Command 0x01 ++ [Event.delayMs e4] ++
  LCD_Command 0x06 ++ [Event.delayMs e5] ++
  LCD_Command 0x0C

/-- C1, counterexample: the initialization trace is NOT of the claimed
shape — nine command sends with strictly decreasing non-zero delays
after the three 0x30 sends and a non-zero delay after every one of
0x20, 0x28, 0x08, 0x01, 0x06, 0x0C.  In the code the delay after the
third 0x30 (10 ms) exceeds the one after the second (1 ms), and no
delay at all follows the final 0x0C. -/
theorem LCD_Init_claim_refuted :
    ¬ ∃ d0 d1 d2 d3 e1 e2 e3 e4 e5 e6 : Nat,
        d1 > d2 ∧ d2 > d3 ∧ d3 > 0 ∧
        e1 > 0 ∧ e2 > 0 ∧ e3 > 0 ∧ e4 > 0 ∧ e5 > 0 ∧ e6 > 0 ∧
        LCD_Init = initClaimTemplate d0 d1 d2 d3 e1 e2 e3 e4 e5 e6 := by
  rintro ⟨d0, d1, d2, d3, e1, e2, e3, e4, e5, e6, -, -, -, -, -, -, -, -, -, heq⟩
  have hlen := congrArg List.length heq
  have hc : ∀ v : Nat, (LCD_Command v).length = 18 := fun v => rfl
  simp only [LCD_Init, initClaimTemplate, List.length_append, hc, List.length_cons,
    List.length_nil, List.length_singleton] at hlen
  omega

/-- C1, amended: `LCD_Init` emits, deterministically and with no input,
exactly nine command sends in the order 0x30, 0x30, 0x30, 0x20, 0x28,
0x08, 0x01, 0x06, 0x0C, all in instruction mode; the delays after the
three 0x30 sends are 5 ms, 1 ms and 10 ms (so not monotonically
decreasing), each of 0x20, 0x28, 0x08, 0x01, 0x06 is followed by a
non-zero delay, and the final 0x0C is followed by no delay. -/
theorem LCD_Init_sequence :
    LCD_Init = initActualTemplate 50 5 1 10 10 1 1 1 1
    ∧ emittedBytes LCD_Init =
        [(0x30, 0), (0x30, 0), (0x30, 0), (0x20, 0), (0x28, 0),
         (0x08, 0), (0x01, 0), (0x06, 0), (0x0C, 0)]
    ∧ LCD_Init.filterMap msDelay = [50, 5, 1, 10, 10, 1, 1, 1, 1] :=
  ⟨rfl, by decide, by decide⟩

/-! ### Claim C2: LCD_Command splits into two instruction nibbles -/

/-- C2: for every 8-bit value v, `LCD_Command v` emits exactly two
nibble transmissions, high nibble `(v>>4)&0xF` then low nibble `v&0xF`,
both in instruction mode, and every RS write in the trace drives the
line low. -/
theorem LCD_Command_nibbles (s : PinState) (v : Nat) (_hv : v < 256) :
    transmissionsFrom s (LCD_Command v) = [((v >>> 4) &&& 0x0F, 0), (v &&& 0x0F, 0)]
    ∧ (LCD_Command v).filterMap rsLevel = [0, 0] :=
  ⟨transmissionsFrom_command s v, rfl⟩

/-- C2 witness: `LCD_Command 0x35` from the reset state. -/
theorem LCD_Command_nibbles_witness :
    (0x35 : Nat) < 256
    ∧ transmissionsFrom resetState (LCD_Command 0x35) = [(3, 0), (5, 0)]
    ∧ (LCD_Command 0x35).filterMap rsLevel = [0, 0] :=
  ⟨by decide, (LCD_Command_nibbles resetState 0x35 (by decide)).1.trans (by decide),
    (LCD_Command_nibbles resetState 0x35 (by decide)).2⟩

/-! ### Claim C3: a single nibble transmission -/

/-- C3: `LCD_Transmit nibble mode` performs, in order: one RS write with
the mode, four data-line writes MSB first (DB7 gets bit 3, DB6 bit 2,
DB5 bit 1, DB4 bit 0, each extracted independently), a strobe raise, a
hold of at least 20 µs, a strobe lower, and the same hold again before
returning. -/
theorem LCD_Transmit_sequence (data rs : Nat) :
    ∃ hold : Nat, 20 ≤ hold ∧
      LCD_Transmit data rs =
        [ Event.writePin Pin.RS rs,
          Event.writePin Pin.DB7 (bitOf data 3),
          Event.writePin Pin.DB6 (bitOf data 2),
          Event.writePin Pin.DB5 (bitOf data 1),
          Event.writePin Pin.DB4 (bitOf data 0),
          Event.writePin Pin.EN 1,
          Event.delayUs hold,
          Event.writePin Pin.EN 0,
          Event.delayUs hold ] := by
  refine ⟨20, Nat.le_refl 20, ?_⟩
  simp only [LCD_Transmit, shiftRight_and_one_eq_bitOf]

/-! ### Claim C4: cursor addressing -/

/-- C4: `LCD_Put_Cursor 0 c` emits the single command byte `0x80 | c`,
`LCD_Put_Cursor 1 c` emits `0xC0 | c`, and any row outside {0, 1}
sends the raw column value unchanged, with no validation. -/
theorem LCD_Put_Cursor_address :
    (∀ c : Nat, c < 64 →
        emittedBytes (LCD_Put_Cursor 0 c) = [(0x80 ||| c, 0)]
        ∧ emittedBytes (LCD_Put_Cursor 1 c) = [(0xC0 ||| c, 0)])
    ∧ (∀ row : Int, row ≠ 0 → row ≠ 1 → ∀ c : Nat, c < 256 →
        emittedBytes (LCD_Put_Cursor row c) = [(c, 0)]) := by
  constructor
  · intro c hc
    have hb0 : c ||| 0x80 < 256 := by
      have h1 : c < 2 ^ 8 := by omega
      have h2 : (0x80 : Nat) < 2 ^ 8 := by norm_num
      simpa using Nat.or_lt_two_pow h1 h2
    have hb1 : c ||| 0xC0 < 256 := by
      have h1 : c < 2 ^ 8 := by omega
      have h2 : (0xC0 : Nat) < 2 ^ 8 := by norm_num
      simpa using Nat.or_lt_two_pow h1 h2
    constructor
    · have he : LCD_Put_Cursor 0 c = LCD_Command ((c ||| 0x80) % 256) := by
        simp [LCD_Put_Cursor]
      rw [he, emittedBytes_command, Nat.mod_eq_of_lt (Nat.mod_lt _ (by norm_num)),
        Nat.mod_eq_of_lt hb0, Nat.lor_comm]
    · have he : LCD_Put_Cursor 1 c = LCD_Command ((c ||| 0xC0) % 256) := by
        simp [LCD_Put_Cursor]
      rw [he, emittedBytes_command, Nat.mod_eq_of_lt (Nat.mod_lt _ (by norm_num)),
        Nat.mod_eq_of_lt hb1, Nat.lor_comm]
  · intro row h0 h1 c hc
    have he : LCD_Put_Cursor row c = LCD_Command (c % 256) := by
      simp [LCD_Put_Cursor, h0, h1]
    rw [he, emittedBytes_command, Nat.mod_eq_of_lt (Nat.mod_lt _ (by norm_num)),
      Nat.mod_eq_of_lt hc]

/-- C4 witness: the spec's two worked examples plus an out-of-range
row. -/
theorem LCD_Put_Cursor_address_witness :
    (5 : Nat) < 64 ∧ (10 : Nat) < 64 ∧ (2 : Int) ≠ 0 ∧ (2 : Int) ≠ 1 ∧ (7 : Nat) < 256
    ∧ emittedBytes (LCD_Put_Cursor 0 5) = [(0x85, 0)]
    ∧ emittedBytes (LCD_Put_Cursor 1 10) = [(0xCA, 0)]
    ∧ emittedBytes (LCD_Put_Cursor 2 7) = [(7, 0)] :=
  ⟨by decide, by decide, by decide, by decide, by decide,
    ((LCD_Put_Cursor_address.1 5 (by decide)).1).trans (by decide),
    ((LCD_Put_Cursor_address.1 10 (by decide)).2).trans (by decide),
    LCD_Put_Cursor_address.2 2 (by decide) (by decide) 7 (by decide)⟩

/-! ### Claim C5: clear -/

/-- C5: `LCD_Clear` emits exactly one command send (two nibble
transmissions), of value 0x01, and its trace ends with a delay of at
least 2 ms; no other bus activity occurs. -/
theorem LCD_Clear_emission :
    emittedBytes LCD_Clear = [(0x01, 0)]
    ∧ (transmissionsFrom resetState LCD_Clear).length = 2
    ∧ ∃ settle : Nat, 2 ≤ settle ∧ LCD_Clear.getLast? = some (Event.delayMs settle) :=
  ⟨by decide, by decide, 2, by decide, by decide⟩

/-! ### Claim C6: LCD_Data splits into two data-mode nibbles -/

/-- C6: for every 8-bit value v, `LCD_Data v` emits exactly two nibble
transmissions, high nibble `(v>>4)&0xF` then low nibble `v&0xF`, both
in data mode, and every RS write in the trace drives the line high. -/
theorem LCD_Data_nibbles (s : PinState) (v : Nat) (_hv : v < 256) :
    transmissionsFrom s (LCD_Data v) = [((v >>> 4) &&& 0x0F, 1), (v &&& 0x0F, 1)]
    ∧ (LCD_Data v).filterMap rsLevel = [1, 1] :=
  ⟨transmissionsFrom_data s v, rfl⟩

/-- C6 witness: `LCD_Data 0x48` from the reset state. -/
theorem LCD_Data_nibbles_witness :
    (0x48 : Nat) < 256
    ∧ transmissionsFrom resetState (LCD_Data 0x48) = [(4, 1), (8, 1)]
    ∧ (LCD_Data 0x48).filterMap rsLevel = [1, 1] :=
  ⟨by decide, (LCD_Data_nibbles resetState 0x48 (by decide)).1.trans (by decide),
    (LCD_Data_nibbles resetState 0x48 (by decide)).2⟩

/-! ### Claim C7: LCD_String walks the characters up to the sentinel -/

/-- C7: for a null-terminated character sequence, `LCD_String` sends
exactly the characters before the sentinel, in order, each through
`LCD_Data` (so split into the standard two nibble transmissions with
mode = data), and emits nothing for the sentinel or the memory beyond
it. -/
theorem LCD_String_sends (str rest : List Nat) (h : ∀ c ∈ str, c ≠ 0 ∧ c < 256) :
    LCD_String (str ++ 0 :: rest) = str.flatMap LCD_Data
    ∧ emittedBytes (LCD_String (str ++ 0 :: rest)) = str.map (fun c => (c, 1)) := by
  have heq := LCD_String_eq_flatMap str rest fun c hc => (h c hc).1
  refine ⟨heq, ?_⟩
  rw [heq]
  unfold emittedBytes
  rw [transmissionsFrom_string, bytesOf_string]
  exact List.map_congr_left fun c hc => by rw [Nat.mod_eq_of_lt (h c hc).2]

/-- C7 witness: `LCD_String` on the bytes of "Hi" (0x48, 0x69) plus the
terminator emits the data sends 0x48 then 0x69. -/
theorem LCD_String_sends_witness :
    (∀ c ∈ [0x48, 0x69], c ≠ 0 ∧ c < 256)
    ∧ emittedBytes (LCD_String ([0x48, 0x69] ++ 0 :: [])) = [(0x48, 1), (0x69, 1)] :=
  ⟨by decide, (LCD_String_sends [0x48, 0x69] [] (by decide)).2.trans (by decide)⟩

/-! ### Claim C8: initializing twice -/

/-- C8: running `LCD_Init` twice back to back latches two full,
identical copies of the single-run transmission sequence, and the
transmissions of one run do not depend on the pin state it starts from
(no state-dependent divergence). -/
theorem LCD_Init_twice_identical (s s' : PinState) :
    transmissionsFrom s (LCD_Init ++ LCD_Init)
      = transmissionsFrom s LCD_Init ++ transmissionsFrom s LCD_Init
    ∧ transmissionsFrom s LCD_Init = transmissionsFrom s' LCD_Init := by
  constructor
  · rw [transmissionsFrom_append]
    rw [transmissionsFrom_init_const (runTrace s LCD_Init), transmissionsFrom_init_const s]
  · rw [transmissionsFrom_init_const s, transmissionsFrom_init_const s']

/-! ### Claim C9: only the low nibble of the data argument matters -/

/-- C9: `LCD_Transmit` emits identical GPIO activity for any two data
arguments that agree modulo 16 (with the same mode): each data line is
driven from one of bits 3..0 and bits 4-7 are never examined. -/
theorem LCD_Transmit_mod16 (d1 d2 rs : Nat) (h : d1 % 16 = d2 % 16) :
    LCD_Transmit d1 rs = LCD_Transmit d2 rs := by
  have e3 : (d1 >>> 3) &&& 0x01 = (d2 >>> 3) &&& 0x01 := by
    simp only [Nat.shiftRight_eq_div_pow, Nat.and_one_is_mod]; omega
  have e2 : (d1 >>> 2) &&& 0x01 = (d2 >>> 2) &&& 0x01 := by
    simp only [Nat.shiftRight_eq_div_pow, Nat.and_one_is_mod]; omega
  have e1 : (d1 >>> 1) &&& 0x01 = (d2 >>> 1) &&& 0x01 := by
    simp only [Nat.shiftRight_eq_div_pow, Nat.and_one_is_mod]; omega
  have e0 : (d1 >>> 0) &&& 0x01 = (d2 >>> 0) &&& 0x01 := by
    simp only [Nat.shiftRight_eq_div_pow, Nat.and_one_is_mod]; omega
  simp only [LCD_Transmit, e3, e2, e1, e0]

/-- C9 witness: 21 and 5 agree mod 16 and produce the same trace. -/
theorem LCD_Transmit_mod16_witness :
    (21 : Nat) % 16 = (5 : Nat) % 16 ∧ LCD_Transmit 21 0 = LCD_Transmit 5 0 :=
  ⟨by decide, LCD_Transmit_mod16 21 5 0 (by decide)⟩

/-! ### Claim C10: the strobe line is low when every operation returns -/

/-- C10: every complete driver operation leaves the enable (strobe)
line low: each `LCD_Transmit` lowers it after its single raise, and
every public operation — `LCD_Command`, `LCD_Data`, `LCD_Clear`,
`LCD_Put_Cursor`, `LCD_String` (which may emit nothing, so it needs
the invariant as a precondition), `LCD_Init` — preserves this. -/
theorem strobe_low_after_ops :
    (∀ (s : PinState) (d rs : Nat), (runTrace s (LCD_Transmit d rs)).en = 0)
    ∧ (∀ (s : PinState) (v : Nat), (runTrace s (LCD_Command v)).en = 0)
    ∧ (∀ (s : PinState) (v : Nat), (runTrace s (LCD_Data v)).en = 0)
    ∧ (∀ s : PinState, (runTrace s LCD_Clear).en = 0)
    ∧ (∀ (s : PinState) (row : Int) (col : Nat), (runTrace s (LCD_Put_Cursor row col)).en = 0)
    ∧ (∀ (s : PinState) (str : List Nat), s.en = 0 → (runTrace s (LCD_String str)).en = 0)
    ∧ (∀ s : PinState, (runTrace s LCD_Init).en = 0) := by
  refine ⟨fun s d rs => rfl, fun s v => rfl, fun s v => rfl, fun s => rfl,
    fun s row col => rfl, ?_, fun s => rfl⟩
  intro s str
  induction str generalizing s with
  | nil => intro h; simpa [LCD_String, runTrace] using h
  | cons c rest ih =>
    intro h
    by_cases hc : c = 0
    · simpa [LCD_String, hc, runTrace] using h
    · simp only [LCD_String, if_neg hc]
      rw [runTrace_append]
      exact ih _ rfl

/-- C10 witness: the invariant instantiated on a concrete string write
from the reset state. -/
theorem strobe_low_after_ops_witness :
    resetState.en = 0 ∧ (runTrace resetState (LCD_String [0x48, 0x69])).en = 0 :=
  ⟨rfl, strobe_low_after_ops.2.2.2.2.2.1 resetState [0x48, 0x69] rfl⟩
